import Mathlib

/-!
Verification of the resilience core of the `financial-skills` repository
(`financial-data-mcp`): error classification (`error-detection.ts`),
symbol/market classification (`market-router.ts`), the market-aware source
router (`source-router.ts`), the key pool (`api-key-manager.ts`), the circuit
breaker (`circuit-breaker.ts`), the exponential-backoff delay (`api-retry.ts`)
and the cascading-failover dispatcher (`resilient-api-client.ts`).

The TypeScript code is embedded shallowly: each class becomes a state
structure with pure transition functions; `Date.now()` becomes an explicit
`now : Nat` argument; thrown values become an explicit error type (recording
whether the thrown value was an `Error` instance, since the code branches on
`instanceof Error`); an executor's successive invocations are modelled as a
stream indexed by an invocation counter.
-/

set_option maxRecDepth 4000

namespace FinSkills

/-- The six upstream provider tags (`ApiSource` in `types.ts`). -/
inductive ApiSource
  | finnhub | alphavantage | twelvedata | tiingo | sina | eastmoney
  deriving DecidableEq, Repr

/-- Market tags from `market-router.ts`. -/
inductive Market
  | US | SH | SZ | BJ | HK | UNKNOWN
  deriving DecidableEq, Repr

/-- A thrown JavaScript value: whether it is an `Error` instance (the code
branches on `instanceof Error`), and its message (empty for non-`Error`
throws, whose message is never inspected by the code we model). -/
structure ThrownError where
  isErrorInstance : Bool
  message : String
  deriving DecidableEq, Repr

/-! ### Character-list helpers used by the embedding

JavaScript string operations (`toLowerCase`, `toUpperCase`, `includes`,
`endsWith`, the regexes of `market-router.ts`) are modelled on `List Char`,
faithful on the ASCII range the routed symbols and error messages use. -/

/-- Test `startsWithL pat l` : `pat` begins `l`. -/
def startsWithL : List Char → List Char → Bool
  | [], _ => true
  | _ :: _, [] => false
  | p :: ps, c :: cs => (p == c) && startsWithL ps cs

/-- Test `hasSubstr pat l` : `pat` occurs contiguously in `l`
(JavaScript `String.prototype.includes`). -/
def hasSubstr (pat : List Char) : List Char → Bool
  | [] => startsWithL pat []
  | c :: cs => startsWithL pat (c :: cs) || hasSubstr pat cs

/-- Test `endsWithL pat l` : `pat` ends `l` (JavaScript `endsWith`). -/
def endsWithL (pat l : List Char) : Bool :=
  startsWithL pat.reverse l.reverse

/-- Lower-cased character list of a string (JS `toLowerCase`, ASCII). -/
def lowerChars (s : String) : List Char := s.toList.map Char.toLower

/-- Test `incl s pat` : lower-cased `s` contains the literal `pat`
(the `message.includes(...)` checks of `error-detection.ts`). -/
def incl (s : String) (pat : String) : Bool :=
  hasSubstr pat.toList (lowerChars s)

/-! ### Error classification (`error-detection.ts`) -/

/-- Embeds `isRateLimitError` from `error-detection.ts`: an `Error` whose lower-cased
message contains one of the rate-limit markers. -/
def isRateLimitError (e : ThrownError) : Bool :=
  e.isErrorInstance &&
    (incl e.message "429" || incl e.message "rate limit" ||
     incl e.message "rate-limit" || incl e.message "ratelimit" ||
     incl e.message "too many requests" || incl e.message "quota exceeded" ||
     incl e.message "api limit" || incl e.message "throttl")

/-- Embeds `isTransientError` from `error-detection.ts`. -/
def isTransientError (e : ThrownError) : Bool :=
  e.isErrorInstance &&
    (incl e.message "500" || incl e.message "502" ||
     incl e.message "503" || incl e.message "504" ||
     incl e.message "timeout" || incl e.message "econnreset" ||
     incl e.message "econnrefused" || incl e.message "network")

/-- Embeds `shouldFailoverToNextSource` from `error-detection.ts`: rate-limit or
transient or **any** `Error` instance. -/
def shouldFailoverToNextSource (e : ThrownError) : Bool :=
  isRateLimitError e || isTransientError e || e.isErrorInstance

/-- An error is classified PERMANENT when it is neither a rate-limit, nor a
transient (which subsumes the timeout markers the code tests), error. -/
def isPermanentClass (e : ThrownError) : Bool :=
  !isRateLimitError e && !isTransientError e

/-! ### Symbol/market classifier (`market-router.ts`, `getMarketFromSymbol`) -/

/-- The `/^SH\d{6}$/i`-style tests of `market-router.ts`: two case-folded
letters followed by exactly six digits. -/
def exchCode6 (a b : Char) (l : List Char) : Bool :=
  match l with
  | x :: y :: rest =>
      (x.toLower == a) && (y.toLower == b) &&
      (rest.length == 6) && rest.all Char.isDigit
  | _ => false

/-- Test of `/^[A-Z]{1,5}$/.test(symbol)`: one to five ASCII capitals. -/
def usLetters (l : List Char) : Bool :=
  decide (1 ≤ l.length) && decide (l.length ≤ 5) && l.all Char.isUpper

/-- Embeds `getMarketFromSymbol` from `market-router.ts`, rule for rule:
suffix tests on the upper-cased symbol, then the `SH/SZ/BJ + 6 digits`
forms, then rules on the subsequence of digits of the symbol
(`symbol.replace(/\D/g, '')`), then the bare-capitals test. -/
def getMarketFromSymbol (l : List Char) : Market :=
  if endsWithL ".SH".toList (l.map Char.toUpper) ||
     endsWithL ".SS".toList (l.map Char.toUpper) then .SH
  else if endsWithL ".SZ".toList (l.map Char.toUpper) then .SZ
  else if endsWithL ".BJ".toList (l.map Char.toUpper) then .BJ
  else if endsWithL ".HK".toList (l.map Char.toUpper) then .HK
  else if endsWithL ".US".toList (l.map Char.toUpper) ||
          endsWithL ".N".toList (l.map Char.toUpper) ||
          endsWithL ".O".toList (l.map Char.toUpper) then .US
  else if exchCode6 's' 'h' l then .SH
  else if exchCode6 's' 'z' l then .SZ
  else if exchCode6 'b' 'j' l then .BJ
  else if ((l.filter Char.isDigit).length == 6) &&
          ((l.filter Char.isDigit).headD 'x' == '6' ||
           (l.filter Char.isDigit).headD 'x' == '5') then .SH
  else if ((l.filter Char.isDigit).length == 6) &&
          ((l.filter Char.isDigit).headD 'x' == '0' ||
           (l.filter Char.isDigit).headD 'x' == '3' ||
           (l.filter Char.isDigit).headD 'x' == '2') then .SZ
  else if ((l.filter Char.isDigit).length == 6) &&
          ((l.filter Char.isDigit).headD 'x' == '4' ||
           (l.filter Char.isDigit).headD 'x' == '8') then .BJ
  else if ((l.filter Char.isDigit).length == 5) &&
          (l.filter Char.isDigit).all Char.isDigit then .HK
  else if usLetters l then .US
  else .UNKNOWN

/-- Classifier applied to a `String` symbol. -/
def marketOf (s : String) : Market := getMarketFromSymbol s.toList

example : marketOf "AAPL" = .US := by decide
example : marketOf "601899.SH" = .SH := by decide
example : marketOf "000001.SZ" = .SZ := by decide
example : marketOf "00700.HK" = .HK := by decide
example : marketOf "600000" = .SH := by decide
example : marketOf "sh600000" = .SH := by decide
example : marketOf "AAPL.US" = .US := by decide
example : marketOf "12345" = .HK := by decide
example : marketOf "" = .UNKNOWN := by decide

/-! ### Market-aware source router (`source-router.ts`) -/

/-- Embeds `OPTIMAL_SOURCE_MAP` of the market-aware `source-router.ts`
(the canonical one, which includes sina/eastmoney). `none` for a tool with
no entry. -/
def OPTIMAL_SOURCE_MAP (tool : String) : Option (List ApiSource) :=
  if tool = "get_stock_quote" then
    some [.finnhub, .twelvedata, .tiingo, .alphavantage, .sina, .eastmoney]
  else if tool = "get_stock_candles" then
    some [.twelvedata, .finnhub, .tiingo, .sina, .eastmoney]
  else if tool = "get_stock_price_history" then
    some [.twelvedata, .finnhub, .tiingo, .alphavantage, .sina, .eastmoney]
  else if tool = "get_technical_indicator" then
    some [.twelvedata, .alphavantage]
  else if tool = "get_daily_prices" then
    some [.tiingo, .alphavantage, .twelvedata, .sina, .eastmoney]
  else if tool = "get_news" then
    some [.tiingo, .finnhub]
  else if tool = "get_quote" then
    some [.twelvedata, .tiingo, .alphavantage, .sina, .eastmoney]
  else if tool = "get_company_overview" then
    some [.tiingo, .alphavantage]
  else if tool = "get_company_info" then
    some [.finnhub, .alphavantage, .tiingo]
  else if tool = "get_financials" then
    some [.finnhub, .alphavantage]
  else if tool = "get_company_basic_financials" then
    some [.finnhub]
  else if tool = "get_company_metrics" then
    some [.finnhub]
  else if tool = "get_income_statement" then
    some [.alphavantage]
  else if tool = "get_balance_sheet" then
    some [.alphavantage]
  else if tool = "get_cash_flow" then
    some [.alphavantage]
  else none

/-- Embeds `MARKET_SOURCE_FILTER` of the market-aware `source-router.ts`. -/
def MARKET_SOURCE_FILTER : Market → List ApiSource
  | .US => [.finnhub, .twelvedata, .tiingo, .alphavantage]
  | .SH => [.sina, .eastmoney]
  | .SZ => [.sina, .eastmoney]
  | .BJ => [.sina, .eastmoney]
  | .HK => [.finnhub, .twelvedata, .sina]
  | .UNKNOWN => [.finnhub, .alphavantage, .sina, .eastmoney]

/-- The base priority list of `SourceRouter.getSourcesForTool`:
the custom (environment-loaded) priority if present, else the
`OPTIMAL_SOURCE_MAP` entry, else `[finnhub]`. -/
def basePriority (custom : Option (List ApiSource)) (tool : String) :
    List ApiSource :=
  match custom with
  | some c => c
  | none => (OPTIMAL_SOURCE_MAP tool).getD [.finnhub]

/-- Embeds `SourceRouter.getSourcesForTool(toolName, symbol?)`: the base
priority list, and — only when a symbol is given and non-empty (the JS
`if (symbol)` guard, under which the empty string is falsy) — its
intersection with the market coverage of the symbol's market (preserving
base order), falling back to the whole coverage list when the intersection
is empty. -/
def getSourcesForTool (custom : Option (List ApiSource)) (tool : String)
    (symbol : Option String) : List ApiSource :=
  let sources := basePriority custom tool
  match symbol with
  | none => sources
  | some sym =>
      if sym.isEmpty then sources
      else
        let marketSources := MARKET_SOURCE_FILTER (marketOf sym)
        let filtered := sources.filter (fun s => marketSources.contains s)
        if filtered.isEmpty then marketSources else filtered

example :
    getSourcesForTool none "get_stock_quote" (some "AAPL") =
      [.finnhub, .twelvedata, .tiingo, .alphavantage] := by decide
example :
    getSourcesForTool none "get_news" (some "600000.SH") =
      [.sina, .eastmoney] := by decide
example :
    getSourcesForTool none "get_stock_quote" (some "") =
      [.finnhub, .twelvedata, .tiingo, .alphavantage, .sina, .eastmoney] := by
  decide

/-! ### Key pool (`api-key-manager.ts`, class `KeyManager`)

Each `KeyManager` instance manages the key list of a single provider (all its
map accesses use the one `apiName` it was constructed with), so the embedding
is a single key list plus the current index. -/

/-- Embeds `ApiKeyInfo` from `types.ts` (the credential string is omitted: no code
we model inspects it). -/
structure KeyInfo where
  index : Nat
  usageCount : Nat
  lastUsed : Nat
  inCooldown : Bool
  cooldownUntil : Option Nat := none
  lastRateLimitError : Option Nat := none
  deriving DecidableEq, Repr

/-- State of one provider's `KeyManager`. -/
structure KeyPoolState where
  keys : List KeyInfo
  currentIndex : Nat
  deriving DecidableEq, Repr

/-- A fresh pool of `n` keys (as `initializeKeys` builds it). -/
def freshPool (n : Nat) : KeyPoolState :=
  { keys := (List.range n).map fun i =>
      { index := i, usageCount := 0, lastUsed := 0, inCooldown := false }
    currentIndex := 0 }

/-- The cyclic scan of `getNextKey`: up to `fuel` probes starting at
index `i`, returning the first key not in cooldown together with the index
where it was found. Out-of-range lookup (unreachable while `currentIndex`
stays below the pool size) yields `none`. -/
def scanKeys (keys : List KeyInfo) (fuel i : Nat) : Option (KeyInfo × Nat) :=
  match fuel with
  | 0 => none
  | f + 1 =>
      match keys.get? i with
      | none => none
      | some k =>
          if k.inCooldown then scanKeys keys f ((i + 1) % keys.length)
          else some (k, i)

/-- Embeds `KeyManager.getNextKey`: scan up to `2 * keys.length` positions from the
current index for a key not in cooldown; on success the current index is set
to the found position. Returns `none` when the pool is empty or every probe
hit a cooling key. -/
def getNextKey (p : KeyPoolState) : Option (KeyInfo × KeyPoolState) :=
  if p.keys.isEmpty then none
  else
    match scanKeys p.keys (p.keys.length * 2) p.currentIndex with
    | none => none
    | some (k, i) => some (k, { p with currentIndex := i })

/-- Update the key at `idx` (helper for the `keys[idx]`-mutating methods). -/
def updateKeyAt (p : KeyPoolState) (idx : Nat) (f : KeyInfo → KeyInfo) :
    KeyPoolState :=
  { p with keys := p.keys.mapIdx fun i k => if i = idx then f k else k }

/-- Embeds `KeyManager.markRateLimit`: put the key at `keyIndex` in cooldown until
`now + keyRotationResetWindowMs`; out-of-range indexes are ignored. -/
def markRateLimit (resetWindowMs : Nat) (p : KeyPoolState) (keyIndex now : Nat) :
    KeyPoolState :=
  if keyIndex < p.keys.length then
    updateKeyAt p keyIndex fun k =>
      { k with inCooldown := true,
               cooldownUntil := some (now + resetWindowMs),
               lastRateLimitError := some now }
  else p

/-- Embeds `KeyManager.recordUsage`: bump the key's usage count, stamp `lastUsed`,
and set the current index to it; out-of-range indexes are ignored. -/
def recordUsage (p : KeyPoolState) (keyIndex now : Nat) : KeyPoolState :=
  if keyIndex < p.keys.length then
    let p' := updateKeyAt p keyIndex fun k =>
      { k with usageCount := k.usageCount + 1, lastUsed := now }
    { p' with currentIndex := keyIndex }
  else p

/-- Embeds `KeyManager.checkAndResetCooldowns`: clear `inCooldown` (and the
deadline) on every key whose `cooldownUntil` has passed. -/
def checkAndResetCooldowns (p : KeyPoolState) (now : Nat) : KeyPoolState :=
  { p with keys := p.keys.map fun k =>
      if k.inCooldown && (k.cooldownUntil.getD (now + 1)) ≤ now then
        { k with inCooldown := false, cooldownUntil := none }
      else k }

/-- The do-while scan of `KeyManager.rotateKey`: up to `fuel` steps, each
first advancing cyclically, stopping at a key not in cooldown. -/
def rotateScan (keys : List KeyInfo) (fuel i : Nat) : Option Nat :=
  match fuel with
  | 0 => none
  | f + 1 =>
      let j := (i + 1) % keys.length
      match keys.get? j with
      | none => none
      | some k => if k.inCooldown then rotateScan keys f j else some j

/-- Embeds `KeyManager.rotateKey`: with more than one key, advance the current index
to the next key not in cooldown; returns whether one was found. -/
def rotateKey (p : KeyPoolState) : Bool × KeyPoolState :=
  if p.keys.length ≤ 1 then (false, p)
  else
    match rotateScan p.keys p.keys.length p.currentIndex with
    | none => (false, p)
    | some j => (true, { p with currentIndex := j })

/-- Embeds `KeyManager.getAvailableKeyCount`: keys not in cooldown. -/
def availableKeyCount (p : KeyPoolState) : Nat :=
  (p.keys.filter fun k => !k.inCooldown).length

/-- Embeds `KeyManager.hasAvailableKey`: sweep expired cooldowns, then report
whether any key is available (it mutates the pool). -/
def hasAvailableKey (p : KeyPoolState) (now : Nat) : Bool × KeyPoolState :=
  let p' := checkAndResetCooldowns p now
  (0 < availableKeyCount p', p')

/-! ### Circuit breaker (`circuit-breaker.ts`, class `CircuitBreaker`) -/

/-- Embeds `CircuitState` of `circuit-breaker.ts` (`'open'` is rendered `opened`,
`open` being a Lean keyword). -/
inductive CircuitState
  | closed | opened | halfOpen
  deriving DecidableEq, Repr

/-- Mutable fields of a `CircuitBreaker`. -/
structure BreakerState where
  circuitState : CircuitState
  failureCount : Nat
  lastFailureTime : Nat
  lastStateChange : Nat
  deriving DecidableEq, Repr

/-- Fresh breaker, as the constructor initialises it. -/
def freshBreaker : BreakerState :=
  { circuitState := .closed, failureCount := 0,
    lastFailureTime := 0, lastStateChange := 0 }

/-- The `ResilienceConfig` fields read by the code we model. -/
structure ResilienceConfig where
  circuitBreakerEnabled : Bool
  circuitBreakerFailureThreshold : Nat
  circuitBreakerTimeoutMs : Nat
  keyRotationResetWindowMs : Nat
  deriving DecidableEq, Repr

/-- Outcome of one invocation of the wrapped function `fn`:
it resolves with a value or throws. -/
inductive CallOutcome (α : Type)
  | ok (a : α)
  | err (e : ThrownError)
  deriving DecidableEq, Repr

/-- Result of a breaker-wrapped call: the function's outcome, or the
synthetic `CIRCUIT_OPEN` rejection. -/
inductive ExecResult (α : Type)
  | ok (a : α)
  | err (e : ThrownError)
  | circuitOpen
  deriving DecidableEq, Repr

/-- Embeds `CircuitBreaker.onSuccess`: zero the failure count; close the circuit
(stamping `lastStateChange`) if it was not closed. -/
def onSuccess (st : BreakerState) (now : Nat) : BreakerState :=
  if st.circuitState = .closed then { st with failureCount := 0 }
  else { st with failureCount := 0, circuitState := .closed,
                 lastStateChange := now }

/-- Embeds `CircuitBreaker.onFailure`: bump the failure count and `lastFailureTime`;
open the circuit (stamping `lastStateChange`) once the count reaches the
threshold while not already open. -/
def onFailure (cfg : ResilienceConfig) (st : BreakerState) (now : Nat) :
    BreakerState :=
  let st' := { st with failureCount := st.failureCount + 1,
                       lastFailureTime := now }
  if cfg.circuitBreakerFailureThreshold ≤ st'.failureCount ∧
     st.circuitState ≠ .opened then
    { st' with circuitState := .opened, lastStateChange := now }
  else st'

/-- Embeds `CircuitBreaker.execute`: pass through when the breaker is disabled;
reject with `CIRCUIT_OPEN` whenever the circuit is open (regardless of
elapsed time); otherwise run `fn` and record its outcome. -/
def CircuitBreaker.execute (cfg : ResilienceConfig) (st : BreakerState)
    (out : CallOutcome α) (now : Nat) : ExecResult α × BreakerState :=
  if !cfg.circuitBreakerEnabled then
    match out with
    | .ok a => (.ok a, st)
    | .err e => (.err e, st)
  else if st.circuitState = .opened then (.circuitOpen, st)
  else
    match out with
    | .ok a => (.ok a, onSuccess st now)
    | .err e => (.err e, onFailure cfg st now)

/-- Embeds `CircuitBreaker.testRecovery`: pass through (with **no** state change)
when the circuit is not open; when open and `timeout_ms` has elapsed since
`lastFailureTime`, move to half-open (stamping `lastStateChange`) and run the
trial call, recording its outcome; otherwise reject with `CIRCUIT_OPEN`.
The JS comparison `now - lastFailureTime >= timeoutMs` is rendered
`lastFailureTime + timeoutMs ≤ now`, which agrees with it also when the
subtraction would be negative. -/
def CircuitBreaker.testRecovery (cfg : ResilienceConfig) (st : BreakerState)
    (out : CallOutcome α) (now : Nat) : ExecResult α × BreakerState :=
  if st.circuitState ≠ .opened then
    match out with
    | .ok a => (.ok a, st)
    | .err e => (.err e, st)
  else if st.lastFailureTime + cfg.circuitBreakerTimeoutMs ≤ now then
    let st1 := { st with circuitState := .halfOpen, lastStateChange := now }
    match out with
    | .ok a => (.ok a, onSuccess st1 now)
    | .err e => (.err e, onFailure cfg st1 now)
  else (.circuitOpen, st)

/-! ### The cascading-failover dispatcher (`resilient-api-client.ts`)

`ResilientApiClient` state relevant to dispatch: the per-provider key pools
(`keyManagers`; providers without a `KeyManager` map to `none`) and the
per-provider circuit breakers (the class declares a `circuitBreakers` map
which no dispatch path reads or writes). Which providers have a configured
client (`getClientForSource`) is the `hasClient` predicate.

An executor's successive invocations may differ (they hit the network), so an
executor is a stream `ApiSource → Nat → CallOutcome α`, the `Nat` being a
global invocation counter threaded through the dispatch. -/

/-- Dispatch-relevant state of `ResilientApiClient`. -/
structure ClientState where
  pools : ApiSource → Option KeyPoolState
  breakers : ApiSource → BreakerState

/-- Replace one provider's pool. -/
def setPool (st : ClientState) (s : ApiSource) (v : Option KeyPoolState) :
    ClientState :=
  { st with pools := fun s' => if s' = s then v else st.pools s' }

/-- Provider name as used in error messages. -/
def sourceName : ApiSource → String
  | .finnhub => "finnhub"
  | .alphavantage => "alphavantage"
  | .twelvedata => "twelvedata"
  | .tiingo => "tiingo"
  | .sina => "sina"
  | .eastmoney => "eastmoney"

/-- The synthetic `Error` thrown when `executeWithKeyRotation` exhausts a
pool without any attempt erroring. -/
def exhaustedError (s : ApiSource) : ThrownError :=
  { isErrorInstance := true,
    message := "All keys exhausted for " ++ sourceName s }

/-- The retry loop of `executeWithKeyRotation` over one provider's pool:
up to `fuel` (= pool size) iterations; each acquires a key, invokes the
stream, and on a rate-limit error marks the key and rotates; any other error
is rethrown at once. Returns the result, the final pool, and the advanced
invocation counter. -/
def keyRotationGo (s : ApiSource) (fn : Nat → CallOutcome α)
    (cfg : ResilienceConfig) (now : Nat) :
    Nat → KeyPoolState → Nat → Option ThrownError →
    Except ThrownError α × KeyPoolState × Nat
  | 0, p, k, lastError => (.error (lastError.getD (exhaustedError s)), p, k)
  | fuel + 1, p, k, lastError =>
      match getNextKey p with
      | none => (.error (lastError.getD (exhaustedError s)), p, k)
      | some (ki, p1) =>
          match fn k with
          | .ok a => (.ok a, recordUsage p1 ki.index now, k + 1)
          | .err e =>
              if isRateLimitError e then
                let p2 := markRateLimit cfg.keyRotationResetWindowMs p1
                            ki.index now
                let rot := rotateKey p2
                if rot.1 then keyRotationGo s fn cfg now fuel rot.2 (k + 1) (some e)
                else (.error e, rot.2, k + 1)
              else (.error e, p1, k + 1)

/-- Embeds `executeWithKeyRotation`: with no `KeyManager` for the provider, a single
bare invocation; otherwise the rotation loop over the pool. -/
def executeWithKeyRotation (s : ApiSource) (fn : Nat → CallOutcome α)
    (cfg : ResilienceConfig) (now : Nat) (p? : Option KeyPoolState) (k : Nat) :
    Except ThrownError α × Option KeyPoolState × Nat :=
  match p? with
  | none =>
      match fn k with
      | .ok a => (.ok a, none, k + 1)
      | .err e => (.error e, none, k + 1)
  | some p =>
      let r := keyRotationGo s fn cfg now p.keys.length p k none
      (r.1, some r.2.1, r.2.2)

/-- Embeds `FailoverAttempt` audit record from `types.ts` (times collapse to the
dispatch's `now` since the embedding does not advance the clock). -/
structure FailoverAttempt where
  source : ApiSource
  keyIndex : Nat
  startTime : Nat
  endTime : Nat
  durationMs : Nat
  success : Bool
  error : Option ThrownError := none
  deriving DecidableEq, Repr

/-- Embeds `CascadingFailoverResult` from `types.ts`. -/
structure CascadingOk (α : Type) where
  data : α
  source : ApiSource
  attempts : List FailoverAttempt
  totalDurationMs : Nat
  deriving DecidableEq, Repr

/-- How a dispatch fails: the aggregate `Error` built after the loop (which
carries the attempts list), or an error rethrown mid-loop (which does not). -/
inductive CascadingErr
  | aggregate (attempts : List FailoverAttempt)
  | raised (e : ThrownError)
  deriving DecidableEq, Repr

/-- Embeds `isSourceAvailable`: false without a client; true without a `KeyManager`;
otherwise `hasAvailableKey` — whose cooldown sweep mutates the pool, so the
updated state is returned too. -/
def isSourceAvailable (hasClient : ApiSource → Bool) (st : ClientState)
    (s : ApiSource) (now : Nat) : Bool × ClientState :=
  if !hasClient s then (false, st)
  else
    match st.pools s with
    | none => (true, st)
    | some p =>
        ((hasAvailableKey p now).1,
         setPool st s (some (hasAvailableKey p now).2))

/-- An attempt record as `executeWithCascadingFailover` pushes it. -/
def mkAttempt (now : Nat) (s : ApiSource) (keyIndex : Nat) (success : Bool)
    (e : Option ThrownError) : FailoverAttempt :=
  { source := s, keyIndex := keyIndex, startTime := now, endTime := now,
    durationMs := 0, success := success, error := e }

/-- Embeds `getCurrentKeyIndex` as the dispatcher reads it
(`keyManager?.getCurrentKeyIndex(source) ?? 0`). -/
def poolKeyIndex : Option KeyPoolState → Nat
  | none => 0
  | some p => p.currentIndex

/-- The provider loop of `executeWithCascadingFailover`: skip unavailable
providers (recording nothing), try each available one through
`executeWithKeyRotation`, push one attempt record per tried provider, stop at
the first success, rethrow immediately when `shouldFailoverToNextSource`
declines, and build the aggregate error when the list is exhausted. -/
def cascadeGo (executor : ApiSource → Nat → CallOutcome α)
    (cfg : ResilienceConfig) (now : Nat) (hasClient : ApiSource → Bool) :
    List ApiSource → ClientState → List FailoverAttempt → Nat →
    Except CascadingErr (CascadingOk α) × ClientState × Nat
  | [], st, acc, k => (.error (.aggregate acc), st, k)
  | s :: rest, st, acc, k =>
      let av := isSourceAvailable hasClient st s now
      if !av.1 then cascadeGo executor cfg now hasClient rest av.2 acc k
      else
        let keyIndex := poolKeyIndex (av.2.pools s)
        let r := executeWithKeyRotation s (executor s) cfg now (av.2.pools s) k
        let st2 := setPool av.2 s r.2.1
        match r.1 with
        | .ok a =>
            (.ok { data := a, source := s,
                   attempts := acc ++ [mkAttempt now s keyIndex true none],
                   totalDurationMs := 0 },
             st2, r.2.2)
        | .error e =>
            if shouldFailoverToNextSource e then
              cascadeGo executor cfg now hasClient rest st2
                (acc ++ [mkAttempt now s keyIndex false (some e)]) r.2.2
            else (.error (.raised e), st2, r.2.2)

/-- Embeds `executeWithCascadingFailover`: route, then walk the candidates. -/
def executeWithCascadingFailover (custom : Option (List ApiSource))
    (tool : String) (symbol : Option String)
    (executor : ApiSource → Nat → CallOutcome α) (cfg : ResilienceConfig)
    (now : Nat) (hasClient : ApiSource → Bool) (st : ClientState) :
    Except CascadingErr (CascadingOk α) × ClientState × Nat :=
  cascadeGo executor cfg now hasClient
    (getSourcesForTool custom tool symbol) st [] 0

/-- The attempts list a dispatch outcome exposes: the result's list on
success, the attached list on the aggregate error, nothing on a rethrown
error (the code throws the original error, which carries no attempts). -/
def attemptsOf? : Except CascadingErr (CascadingOk α) →
    Option (List FailoverAttempt)
  | .ok o => some o.attempts
  | .error (.aggregate a) => some a
  | .error (.raised _) => none

/-- The winning provider of a dispatch outcome. -/
def winnerOf : Except CascadingErr (CascadingOk α) → Option ApiSource
  | .ok o => some o.source
  | .error _ => none

/-! ### Exponential backoff (`api-retry.ts`, `calculateBackoffDelay`)

Modelled over `ℚ` (ideal arithmetic in place of IEEE doubles);
`Math.random()` becomes the explicit draw `rand`. -/

/-- Embeds `calculateBackoffDelay(attemptNumber, initialDelayMs, maxDelayMs)`:
exponential base delay, ±25% jitter from the random draw, capped at
`maxDelayMs`, floored, clamped at zero. -/
def calculateBackoffDelay (attemptNumber : Nat)
    (initialDelayMs maxDelayMs rand : ℚ) : ℤ :=
  let baseDelay := initialDelayMs * 2 ^ attemptNumber
  let jitterRange := baseDelay * (1 / 4)
  let jitter := (rand - 1 / 2) * 2 * jitterRange
  let delay := min (baseDelay + jitter) maxDelayMs
  max 0 ⌊delay⌋

/-! ### Definitions taken from the specification's words (for comparison
with the code embeddings; each is named `spec...`) -/

/-- Modelled from the claim's words (not from the code): the classifier the
specification describes — suffix rules `.SH`/`.SS`/`.SZ`/`.BJ`/`.HK`
(case-insensitive), bare 1–5 uppercase letters, 6-digit codes by first
digit, 5-digit codes, everything else UNKNOWN. -/
def specMarketClaim (l : List Char) : Market :=
  if endsWithL ".SH".toList (l.map Char.toUpper) ||
     endsWithL ".SS".toList (l.map Char.toUpper) then .SH
  else if endsWithL ".SZ".toList (l.map Char.toUpper) then .SZ
  else if endsWithL ".BJ".toList (l.map Char.toUpper) then .BJ
  else if endsWithL ".HK".toList (l.map Char.toUpper) then .HK
  else if usLetters l then .US
  else if (l.length == 6) && l.all Char.isDigit &&
          (l.headD 'x' == '6' || l.headD 'x' == '5') then .SH
  else if (l.length == 6) && l.all Char.isDigit &&
          (l.headD 'x' == '0' || l.headD 'x' == '2' || l.headD 'x' == '3')
    then .SZ
  else if (l.length == 6) && l.all Char.isDigit &&
          (l.headD 'x' == '4' || l.headD 'x' == '8') then .BJ
  else if (l.length == 5) && l.all Char.isDigit then .HK
  else .UNKNOWN

/-- First-matching-rule evaluation of a decision list. -/
def applyRules : List ((List Char → Bool) × Market) → List Char → Market
  | [], _ => .UNKNOWN
  | r :: rs, l => if r.1 l then r.2 else applyRules rs l

/-- The amended classifier description, as a decision list: the code's full
rule sequence — the five suffix groups (adding `.US`/`.N`/`.O` → US), the
`SH`/`SZ`/`BJ` + 6-digit exchange forms, the rules on the symbol's digit
subsequence, then the bare-capitals rule. -/
def marketRules : List ((List Char → Bool) × Market) :=
  [ (fun l => endsWithL ".SH".toList (l.map Char.toUpper) ||
              endsWithL ".SS".toList (l.map Char.toUpper), .SH),
    (fun l => endsWithL ".SZ".toList (l.map Char.toUpper), .SZ),
    (fun l => endsWithL ".BJ".toList (l.map Char.toUpper), .BJ),
    (fun l => endsWithL ".HK".toList (l.map Char.toUpper), .HK),
    (fun l => endsWithL ".US".toList (l.map Char.toUpper) ||
              endsWithL ".N".toList (l.map Char.toUpper) ||
              endsWithL ".O".toList (l.map Char.toUpper), .US),
    (fun l => exchCode6 's' 'h' l, .SH),
    (fun l => exchCode6 's' 'z' l, .SZ),
    (fun l => exchCode6 'b' 'j' l, .BJ),
    (fun l => ((l.filter Char.isDigit).length == 6) &&
              ((l.filter Char.isDigit).headD 'x' == '6' ||
               (l.filter Char.isDigit).headD 'x' == '5'), .SH),
    (fun l => ((l.filter Char.isDigit).length == 6) &&
              ((l.filter Char.isDigit).headD 'x' == '0' ||
               (l.filter Char.isDigit).headD 'x' == '3' ||
               (l.filter Char.isDigit).headD 'x' == '2'), .SZ),
    (fun l => ((l.filter Char.isDigit).length == 6) &&
              ((l.filter Char.isDigit).headD 'x' == '4' ||
               (l.filter Char.isDigit).headD 'x' == '8'), .BJ),
    (fun l => ((l.filter Char.isDigit).length == 5) &&
              (l.filter Char.isDigit).all Char.isDigit, .HK),
    (fun l => usLetters l, .US) ]

/-- The amended classifier specification. -/
def specMarketAmended (l : List Char) : Market := applyRules marketRules l

/-- Boolean front-segment test on provider lists (for stating the
router-order claim on concrete runs). -/
def listIsFrontOf : List ApiSource → List ApiSource → Bool
  | [], _ => true
  | _ :: _, [] => false
  | a :: as, b :: bs => (a == b) && listIsFrontOf as bs

/-! ### Concrete dispatch scenarios (the spec's §8 scenarios, instantiated) -/

/-- The `DEFAULT_RESILIENCE_CONFIG` values of `resilient-api-client.ts`. -/
def defaultCfg : ResilienceConfig :=
  { circuitBreakerEnabled := true, circuitBreakerFailureThreshold := 5,
    circuitBreakerTimeoutMs := 60000, keyRotationResetWindowMs := 3600000 }

/-- An HTTP 404 upstream error: a PERMANENT classification (no rate-limit or
transient marker in the message). -/
def err404 : ThrownError := { isErrorInstance := true, message := "404 not found" }

/-- An HTTP 429 upstream error: RATE_LIMIT classification. -/
def err429 : ThrownError :=
  { isErrorInstance := true, message := "429 Too Many Requests" }

/-- An HTTP 500 upstream error: TRANSIENT classification. -/
def err500 : ThrownError :=
  { isErrorInstance := true, message := "HTTP 500 Internal Server Error" }

/-- A thrown value that is not an `Error` instance. -/
def thrownNonError : ThrownError := { isErrorInstance := false, message := "" }

/-- Client state with fresh single-key pools for finnhub and twelvedata. -/
def stTwoProviders : ClientState :=
  { pools := fun s =>
      if s = .finnhub ∨ s = .twelvedata then some (freshPool 1) else none,
    breakers := fun _ => freshBreaker }

/-- Scenario: `get_stock_quote AAPL`, finnhub answers HTTP 404 (PERMANENT),
twelvedata answers a quote (rendered as `0`). -/
def runPermanent : Except CascadingErr (CascadingOk Nat) × ClientState × Nat :=
  executeWithCascadingFailover none "get_stock_quote" (some "AAPL")
    (fun s _ => if s = .finnhub then .err err404 else .ok 0)
    defaultCfg 1000 (fun _ => true) stTwoProviders

/-- Client state with a two-key finnhub pool only. -/
def stTwoKeys : ClientState :=
  { pools := fun s => if s = .finnhub then some (freshPool 2) else none,
    breakers := fun _ => freshBreaker }

/-- Scenario: `get_stock_quote AAPL`, finnhub only, two keys; the first
invocation (key 0) hits HTTP 429, the second (after rotation to key 1)
succeeds. -/
def runKeyRotation : Except CascadingErr (CascadingOk Nat) × ClientState × Nat :=
  executeWithCascadingFailover none "get_stock_quote" (some "AAPL")
    (fun _ k => if k = 0 then .err err429 else .ok 42)
    defaultCfg 1000 (fun s => s == .finnhub) stTwoKeys

/-- Client state with a fresh single-key finnhub pool only. -/
def stOneKey : ClientState :=
  { pools := fun s => if s = .finnhub then some (freshPool 1) else none,
    breakers := fun _ => freshBreaker }

/-- Scenario: finnhub (the only configured provider) answers HTTP 500 on its
single key; the dispatch ends in the aggregate error. -/
def runAllFail : Except CascadingErr (CascadingOk Nat) × ClientState × Nat :=
  executeWithCascadingFailover none "get_stock_quote" (some "AAPL")
    (fun _ _ => .err err500)
    defaultCfg 1000 (fun s => s == .finnhub) stOneKey

/-- Scenario: `get_news` without a symbol routes to `[tiingo, finnhub]`;
tiingo has no client and is skipped, finnhub succeeds. -/
def runSkipFirst : Except CascadingErr (CascadingOk Nat) × ClientState × Nat :=
  executeWithCascadingFailover none "get_news" none
    (fun _ _ => .ok 7)
    defaultCfg 1000 (fun s => s == .finnhub) stOneKey

/-- Scenario: finnhub's executor throws a value that is not an `Error`
instance; the dispatch rethrows it at once. -/
def runNonErrorThrow : Except CascadingErr (CascadingOk Nat) × ClientState × Nat :=
  executeWithCascadingFailover none "get_stock_quote" (some "AAPL")
    (fun _ _ => .err thrownNonError)
    defaultCfg 1000 (fun s => s == .finnhub) stOneKey

example :
    winnerOf runPermanent.1 = some .twelvedata ∧
    (attemptsOf? runPermanent.1).map (List.map FailoverAttempt.source) =
      some [.finnhub, .twelvedata] := by decide

example :
    runKeyRotation.1 = .ok
      { data := 42, source := .finnhub,
        attempts := [mkAttempt 1000 .finnhub 0 true none],
        totalDurationMs := 0 } := by rfl

example :
    (runKeyRotation.2.1.pools .finnhub).map
      (fun p => (p.keys.map KeyInfo.inCooldown, p.currentIndex)) =
      some ([true, false], 1) := by decide

example :
    runAllFail.1 =
      .error (.aggregate [mkAttempt 1000 .finnhub 0 false (some err500)]) := by
  rfl

example :
    attemptsOf? runSkipFirst.1 = some [mkAttempt 1000 .finnhub 0 true none] := by
  decide

example : runNonErrorThrow.1 = .error (.raised thrownNonError) := by rfl

/-- An open breaker as produced by five recorded failures at time 0. -/
def openBreaker : BreakerState :=
  { circuitState := .opened, failureCount := 5,
    lastFailureTime := 0, lastStateChange := 0 }

/-- Applies `n` consecutive failed calls pushed through `CircuitBreaker.execute`. -/
def failSteps (cfg : ResilienceConfig) (e : ThrownError) (now : Nat) :
    Nat → BreakerState → BreakerState
  | 0, st => st
  | n + 1, st =>
      (CircuitBreaker.execute cfg (failSteps cfg e now n st)
        (CallOutcome.err (α := Unit) e) now).2

/-- Fact: `onFailure` always increments the failure count by exactly one. -/
lemma onFailure_count (cfg : ResilienceConfig) (st : BreakerState) (now : Nat) :
    (onFailure cfg st now).failureCount = st.failureCount + 1 := by
  simp only [onFailure]
  split <;> rfl

/-- Fact: `onFailure` keeps a closed circuit closed while below the threshold. -/
lemma onFailure_state_lt (cfg : ResilienceConfig) (st : BreakerState)
    (now : Nat) (h : st.failureCount + 1 < cfg.circuitBreakerFailureThreshold)
    (hcl : st.circuitState = .closed) :
    (onFailure cfg st now).circuitState = .closed := by
  simp only [onFailure]
  rw [if_neg]
  · exact hcl
  · rintro ⟨h1, -⟩
    exact absurd h1 (by omega)

/-- Fact: `onFailure` opens a closed circuit once the threshold is reached. -/
lemma onFailure_state_ge (cfg : ResilienceConfig) (st : BreakerState)
    (now : Nat) (h : cfg.circuitBreakerFailureThreshold ≤ st.failureCount + 1)
    (hcl : st.circuitState = .closed) :
    (onFailure cfg st now).circuitState = .opened := by
  simp only [onFailure]
  rw [if_pos ⟨h, by rw [hcl]; exact fun hx => CircuitState.noConfusion hx⟩]

/-- A failed call through an enabled, not-open breaker records the failure
via `onFailure`. -/
lemma execute_err_not_open (cfg : ResilienceConfig) (st : BreakerState)
    (e : ThrownError) (now : Nat) (hen : cfg.circuitBreakerEnabled = true)
    (hne : st.circuitState ≠ .opened) :
    (CircuitBreaker.execute cfg st (CallOutcome.err (α := Unit) e) now).2 =
      onFailure cfg st now := by
  simp [CircuitBreaker.execute, hen, hne]

/-- With the breaker enabled and a positive threshold `t`, starting closed
with zero failures: after `k ≤ t` failed calls the count is `k` and the
circuit is closed for `k < t`, open at `k = t`. -/
lemma failSteps_spec (cfg : ResilienceConfig) (e : ThrownError) (now : Nat)
    (st0 : BreakerState) (hen : cfg.circuitBreakerEnabled = true)
    (hth : 1 ≤ cfg.circuitBreakerFailureThreshold)
    (hcl : st0.circuitState = .closed) (hfc : st0.failureCount = 0) :
    ∀ k, k ≤ cfg.circuitBreakerFailureThreshold →
      (failSteps cfg e now k st0).failureCount = k ∧
      (failSteps cfg e now k st0).circuitState =
        if k < cfg.circuitBreakerFailureThreshold then .closed else .opened := by
  intro k
  induction k with
  | zero =>
      intro _
      refine ⟨hfc, ?_⟩
      rw [if_pos (Nat.lt_of_lt_of_le Nat.zero_lt_one hth)]
      exact hcl
  | succ k ih =>
      intro hk
      have hk' : k ≤ cfg.circuitBreakerFailureThreshold := Nat.le_of_succ_le hk
      have hklt : k < cfg.circuitBreakerFailureThreshold := hk
      obtain ⟨ihc, ihs⟩ := ih hk'
      rw [if_pos hklt] at ihs
      have hstep : failSteps cfg e now (k + 1) st0 =
          onFailure cfg (failSteps cfg e now k st0) now :=
        execute_err_not_open cfg _ e now hen
          (by rw [ihs]; exact fun hx => CircuitState.noConfusion hx)
      rw [hstep]
      refine ⟨by rw [onFailure_count, ihc], ?_⟩
      by_cases hfull : k + 1 < cfg.circuitBreakerFailureThreshold
      · rw [if_pos hfull]
        exact onFailure_state_lt cfg _ now (by rw [ihc]; exact hfull) ihs
      · rw [if_neg hfull]
        exact onFailure_state_ge cfg _ now (by rw [ihc]; omega) ihs

/-- Claim C5: For every breaker with the circuit-breaker enabled and a positive
failure threshold `t`, starting closed with `failure_count = 0`: fewer than
`t` consecutive failed calls through `execute` leave the circuit closed with
the count equal to the number of failures, exactly `t` such calls open it,
and any single successful call through `execute` while closed or half-open
resets the count to 0 and leaves the circuit closed. -/
theorem c5_theorem (cfg : ResilienceConfig) (e : ThrownError) (now : Nat)
    (st0 : BreakerState) (hen : cfg.circuitBreakerEnabled = true)
    (hth : 1 ≤ cfg.circuitBreakerFailureThreshold)
    (hcl : st0.circuitState = .closed) (hfc : st0.failureCount = 0) :
    (∀ k, k < cfg.circuitBreakerFailureThreshold →
      (failSteps cfg e now k st0).circuitState = .closed ∧
      (failSteps cfg e now k st0).failureCount = k) ∧
    (failSteps cfg e now cfg.circuitBreakerFailureThreshold st0).circuitState
      = .opened ∧
    (∀ st : BreakerState,
      st.circuitState = .closed ∨ st.circuitState = .halfOpen →
      (CircuitBreaker.execute cfg st (CallOutcome.ok ()) now).1 = .ok () ∧
      (CircuitBreaker.execute cfg st (CallOutcome.ok ()) now).2.circuitState
        = .closed ∧
      (CircuitBreaker.execute cfg st (CallOutcome.ok ()) now).2.failureCount
        = 0) := by
  refine ⟨?_, ?_, ?_⟩
  · intro k hk
    obtain ⟨hc, hs⟩ := failSteps_spec cfg e now st0 hen hth hcl hfc k
      (Nat.le_of_lt hk)
    rw [if_pos hk] at hs
    exact ⟨hs, hc⟩
  · obtain ⟨-, hs⟩ := failSteps_spec cfg e now st0 hen hth hcl hfc
      cfg.circuitBreakerFailureThreshold (Nat.le_refl _)
    rw [if_neg (Nat.lt_irrefl _)] at hs
    exact hs
  · intro st hst
    have hne : st.circuitState ≠ .opened := by
      rcases hst with h | h <;> rw [h] <;> exact fun h => CircuitState.noConfusion h
    simp only [CircuitBreaker.execute, hen, Bool.not_true, Bool.false_eq_true,
      if_false, onSuccess]
    rw [if_neg hne]
    rcases hst with h | h <;> simp [h]

/-- Closed instance of `c5_theorem` at threshold 2: one failure leaves the
circuit closed, the second opens it, and a success while closed resets. -/
theorem c5_witness :
    ((failSteps ⟨true, 2, 60000, 3600000⟩ err500 0 1 freshBreaker).circuitState
        = .closed ∧
      (failSteps ⟨true, 2, 60000, 3600000⟩ err500 0 1 freshBreaker).failureCount
        = 1) ∧
    (failSteps ⟨true, 2, 60000, 3600000⟩ err500 0 2 freshBreaker).circuitState
      = .opened :=
  ⟨(c5_theorem ⟨true, 2, 60000, 3600000⟩ err500 0 freshBreaker rfl
      (by decide) rfl rfl).1 1 (by decide),
   (c5_theorem ⟨true, 2, 60000, 3600000⟩ err500 0 freshBreaker rfl
      (by decide) rfl rfl).2.1⟩

/-- Claim C6 (counterexample): An open breaker whose timeout has fully elapsed
(`lastFailureTime + timeoutMs ≤ now`) still short-circuits with
`CIRCUIT_OPEN` on a call through `execute`, and its state is unchanged — the
call is not permitted and no half-open transition happens, contradicting the
claim that `execute` permits the trial once the timeout has elapsed. -/
theorem c6_counterexample :
    openBreaker.lastFailureTime + defaultCfg.circuitBreakerTimeoutMs ≤ 60000 ∧
    CircuitBreaker.execute defaultCfg openBreaker (CallOutcome.ok (0 : Nat))
      60000 = (.circuitOpen, openBreaker) := by
  exact ⟨by decide, by decide⟩

/-- Claim C6 (amended): `execute` short-circuits with `CIRCUIT_OPEN` whenever
the circuit is open, regardless of elapsed time; the open→half-open
transition that permits a trial call exists only in `testRecovery`: once
`timeout_ms` has elapsed since `lastFailureTime` it permits the trial (a
success closes the circuit and zeroes the count; a failure is recorded via
`onFailure` on the half-open state), and before that it short-circuits. -/
theorem c6_theorem {α : Type} (cfg : ResilienceConfig) (st : BreakerState)
    (a : α) (e : ThrownError) (out : CallOutcome α) (now : Nat) :
    (cfg.circuitBreakerEnabled = true → st.circuitState = .opened →
      CircuitBreaker.execute cfg st out now = (.circuitOpen, st)) ∧
    (st.circuitState = .opened →
      st.lastFailureTime + cfg.circuitBreakerTimeoutMs ≤ now →
      CircuitBreaker.testRecovery cfg st (CallOutcome.ok a) now =
        (.ok a, ⟨.closed, 0, st.lastFailureTime, now⟩) ∧
      CircuitBreaker.testRecovery cfg st (CallOutcome.err (α := α) e) now =
        (.err e, onFailure cfg
          ⟨.halfOpen, st.failureCount, st.lastFailureTime, now⟩ now)) ∧
    (st.circuitState = .opened →
      now < st.lastFailureTime + cfg.circuitBreakerTimeoutMs →
      CircuitBreaker.testRecovery cfg st out now = (.circuitOpen, st)) := by
  refine ⟨?_, ?_, ?_⟩
  · intro hen hopen
    simp [CircuitBreaker.execute, hen, hopen]
  · intro hopen htime
    constructor
    · simp [CircuitBreaker.testRecovery, hopen, htime, onSuccess]
    · simp [CircuitBreaker.testRecovery, hopen, htime]
  · intro hopen htime
    simp [CircuitBreaker.testRecovery, hopen, Nat.not_le.mpr htime]

/-- Closed instance of `c6_theorem` on `openBreaker`: `execute` rejects even
after the timeout; `testRecovery` permits after the timeout and rejects
before it. -/
theorem c6_witness :
    CircuitBreaker.execute defaultCfg openBreaker (CallOutcome.ok (1 : Nat))
      60000 = (.circuitOpen, openBreaker) ∧
    CircuitBreaker.testRecovery defaultCfg openBreaker (CallOutcome.ok (1 : Nat))
      60000 = (.ok 1, ⟨.closed, 0, 0, 60000⟩) ∧
    CircuitBreaker.testRecovery defaultCfg openBreaker (CallOutcome.ok (1 : Nat))
      59999 = (.circuitOpen, openBreaker) :=
  ⟨(c6_theorem defaultCfg openBreaker (1 : Nat) err500 (CallOutcome.ok 1)
      60000).1 rfl rfl,
   ((c6_theorem defaultCfg openBreaker (1 : Nat) err500 (CallOutcome.ok 1)
      60000).2.1 rfl (by decide)).1,
   (c6_theorem defaultCfg openBreaker (1 : Nat) err500 (CallOutcome.ok 1)
      59999).2.2 rfl (by decide)⟩

/-! ### Dispatch-level lemmas -/

/-- Fact: `setPool` touches only the pools, never the breakers. -/
lemma setPool_breakers (st : ClientState) (s : ApiSource)
    (v : Option KeyPoolState) (x : ApiSource) :
    (setPool st s v).breakers x = st.breakers x := rfl

/-- The availability check touches only the pools, never the breakers. -/
lemma isSourceAvailable_breakers (hasClient : ApiSource → Bool)
    (st : ClientState) (s : ApiSource) (now : Nat) (x : ApiSource) :
    ((isSourceAvailable hasClient st s now).2).breakers x = st.breakers x := by
  unfold isSourceAvailable
  split
  · rfl
  · split <;> rfl

/-- The provider loop of the dispatcher never reads or writes a circuit
breaker: the breakers map is unchanged. -/
lemma cascadeGo_breakers {α : Type} (executor : ApiSource → Nat → CallOutcome α)
    (cfg : ResilienceConfig) (now : Nat) (hasClient : ApiSource → Bool) :
    ∀ (srcs : List ApiSource) (st : ClientState) (acc : List FailoverAttempt)
      (k : Nat) (x : ApiSource),
      ((cascadeGo executor cfg now hasClient srcs st acc k).2.1).breakers x =
        st.breakers x := by
  intro srcs
  induction srcs with
  | nil => intro st acc k x; rfl
  | cons s rest ih =>
      intro st acc k x
      simp only [cascadeGo]
      split
      · rw [ih]
        exact isSourceAvailable_breakers hasClient st s now x
      · split
        · rw [setPool_breakers]
          exact isSourceAvailable_breakers hasClient st s now x
        · split
          · rw [ih, setPool_breakers]
            exact isSourceAvailable_breakers hasClient st s now x
          · rw [setPool_breakers]
            exact isSourceAvailable_breakers hasClient st s now x

/-- A mid-loop rethrow (`.raised`) happens only when
`shouldFailoverToNextSource` declined the error. -/
lemma cascadeGo_raised {α : Type} (executor : ApiSource → Nat → CallOutcome α)
    (cfg : ResilienceConfig) (now : Nat) (hasClient : ApiSource → Bool) :
    ∀ (srcs : List ApiSource) (st : ClientState) (acc : List FailoverAttempt)
      (k : Nat) (e : ThrownError),
      (cascadeGo executor cfg now hasClient srcs st acc k).1 =
        .error (.raised e) →
      shouldFailoverToNextSource e = false := by
  intro srcs
  induction srcs with
  | nil =>
      intro st acc k e h
      simp only [cascadeGo] at h
      cases h
  | cons s rest ih =>
      intro st acc k e h
      simp only [cascadeGo] at h
      split at h
      · exact ih _ _ _ e h
      · split at h
        · cases h
        · split at h
          · exact ih _ _ _ e h
          · cases h
            by_contra hcon
            simp only [Bool.not_eq_false] at hcon
            exact absurd hcon (by assumption)

/-- Attempts recorded by the provider loop extend the accumulator with
records whose providers form an order-preserving subsequence of the
remaining candidates. -/
lemma cascadeGo_attempts {α : Type} (executor : ApiSource → Nat → CallOutcome α)
    (cfg : ResilienceConfig) (now : Nat) (hasClient : ApiSource → Bool) :
    ∀ (srcs : List ApiSource) (st : ClientState) (acc : List FailoverAttempt)
      (k : Nat) (l : List FailoverAttempt),
      attemptsOf? (cascadeGo executor cfg now hasClient srcs st acc k).1 =
        some l →
      ∃ t, l = acc ++ t ∧
        List.Sublist (t.map FailoverAttempt.source) srcs := by
  intro srcs
  induction srcs with
  | nil =>
      intro st acc k l h
      simp only [cascadeGo, attemptsOf?] at h
      cases h
      exact ⟨[], by simp, List.nil_sublist _⟩
  | cons s rest ih =>
      intro st acc k l h
      simp only [cascadeGo] at h
      split at h
      · obtain ⟨t, ht, hsub⟩ := ih _ _ _ _ h
        exact ⟨t, ht, hsub.cons s⟩
      · split at h
        · simp only [attemptsOf?] at h
          cases h
          refine ⟨[_], rfl, ?_⟩
          simp only [List.map_cons, List.map_nil]
          exact (List.nil_sublist rest).cons₂ s
        · split at h
          · obtain ⟨t, ht, hsub⟩ := ih _ _ _ _ h
            rw [List.append_assoc] at ht
            refine ⟨_ ++ t, ht, ?_⟩
            rw [List.map_append]
            simp only [List.map_cons, List.map_nil, List.singleton_append]
            exact hsub.cons₂ s
          · simp only [attemptsOf?] at h
            cases h

/-- Claim C1 (amended): In `executeWithCascadingFailover`, any attempt failure
whose thrown value is an `Error` instance — including errors classified
PERMANENT — satisfies `shouldFailoverToNextSource`, so the dispatcher moves
on to the next candidate; an error is propagated immediately (aborting the
cascade) only when the thrown value is not an `Error` instance. -/
theorem c1_theorem :
    (∀ e : ThrownError, e.isErrorInstance = true →
      shouldFailoverToNextSource e = true) ∧
    ∀ (α : Type) (executor : ApiSource → Nat → CallOutcome α)
      (cfg : ResilienceConfig) (now : Nat) (hasClient : ApiSource → Bool)
      (custom : Option (List ApiSource)) (tool : String)
      (symbol : Option String) (st : ClientState) (e : ThrownError),
      (executeWithCascadingFailover custom tool symbol executor cfg now
          hasClient st).1 = .error (.raised e) →
      e.isErrorInstance = false := by
  constructor
  · intro e he
    simp [shouldFailoverToNextSource, he]
  · intro α executor cfg now hasClient custom tool symbol st e h
    have hf := cascadeGo_raised executor cfg now hasClient _ _ _ _ e h
    simp only [shouldFailoverToNextSource, Bool.or_eq_false_iff] at hf
    exact hf.2

/-- Closed instance of `c1_theorem`: an `Error` with a PERMANENT-class
message still triggers failover, and the run that does propagate immediately
threw a non-`Error` value. -/
theorem c1_witness :
    shouldFailoverToNextSource err404 = true ∧
    thrownNonError.isErrorInstance = false :=
  ⟨c1_theorem.1 err404 rfl,
   c1_theorem.2 Nat (fun _ _ => .err thrownNonError) defaultCfg 1000
     (fun s => s == .finnhub) none "get_stock_quote" (some "AAPL") stOneKey
     thrownNonError (by rfl)⟩

/-- Claim C1 (counterexample): In `runPermanent`, finnhub fails with HTTP 404 —
classified PERMANENT (neither rate-limit nor transient) — yet the dispatcher
does not propagate it: it contacts the next candidate, twelvedata, which
wins; two attempts are recorded. This refutes the claim that a PERMANENT
failure aborts the cascade. -/
theorem c1_counterexample :
    isPermanentClass err404 = true ∧ err404.isErrorInstance = true ∧
    winnerOf runPermanent.1 = some .twelvedata ∧
    (attemptsOf? runPermanent.1).map (List.map FailoverAttempt.source) =
      some [.finnhub, .twelvedata] := by
  refine ⟨by decide, by decide, by decide, by decide⟩

/-- Claim C2 (amended): A dispatch run never reads or writes any provider's
circuit breaker: the breakers map of the client state is unchanged by
`executeWithCascadingFailover` (failed attempts increment no
`failure_count`, successful attempts record no success). The increment-by-1
behaviour exists only in `CircuitBreaker.onFailure` itself, which the
dispatch never invokes. -/
theorem c2_theorem (α : Type) (executor : ApiSource → Nat → CallOutcome α)
    (cfg : ResilienceConfig) (now : Nat) (hasClient : ApiSource → Bool)
    (custom : Option (List ApiSource)) (tool : String)
    (symbol : Option String) (st : ClientState) :
    (∀ x : ApiSource,
      ((executeWithCascadingFailover custom tool symbol executor cfg now
          hasClient st).2.1).breakers x = st.breakers x) ∧
    (∀ (b : BreakerState) (n : Nat),
      (onFailure cfg b n).failureCount = b.failureCount + 1) :=
  ⟨fun x => cascadeGo_breakers executor cfg now hasClient _ st [] 0 x,
   fun b n => onFailure_count cfg b n⟩

/-- Claim C2 (counterexample): In `runAllFail`, finnhub's attempt fails with
HTTP 500 and the dispatch ends in the aggregate error — yet finnhub's
circuit breaker is exactly the fresh breaker it started as: its
`failure_count` is 0 afterwards, not incremented by 1 as the claim states. -/
theorem c2_counterexample :
    attemptsOf? runAllFail.1 =
      some [mkAttempt 1000 .finnhub 0 false (some err500)] ∧
    runAllFail.2.1.breakers .finnhub = freshBreaker ∧
    (runAllFail.2.1.breakers .finnhub).failureCount = 0 := by
  refine ⟨by rfl, by rfl, by rfl⟩

/-- Claim C4 (amended): In the two-key rate-limit scenario (`runKeyRotation`)
the dispatch returns success from the single candidate provider, but logs
exactly **one** attempt — carrying the pre-rotation `key_index` 0 and
`success := true` — because per-key retries happen inside
`executeWithKeyRotation` and are not recorded as separate attempts. The
executor was invoked twice (the invocation counter ends at 2); key 0 is left
in cooldown until `now + keyRotationResetWindowMs`, key 1 recorded the
usage, and the current index rests on key 1. -/
theorem c4_theorem :
    runKeyRotation.1 = .ok
      { data := 42, source := .finnhub,
        attempts := [mkAttempt 1000 .finnhub 0 true none],
        totalDurationMs := 0 } ∧
    (runKeyRotation.2.1.pools .finnhub).map
        (fun p => (p.keys.map KeyInfo.inCooldown, p.currentIndex)) =
      some ([true, false], 1) ∧
    (runKeyRotation.2.1.pools .finnhub).map
        (fun p => p.keys.map KeyInfo.cooldownUntil) =
      some [some 3601000, none] ∧
    (runKeyRotation.2.1.pools .finnhub).map
        (fun p => p.keys.map KeyInfo.usageCount) = some [0, 1] ∧
    runKeyRotation.2.2 = 2 := by
  refine ⟨by rfl, by rfl, by rfl, by rfl, by rfl⟩

/-- Claim C4 (counterexample): The same scenario refutes the claim's "exactly
two attempts logged, key_index 0 then 1": the returned `DispatchResult`
carries exactly one attempt record. -/
theorem c4_counterexample :
    (attemptsOf? runKeyRotation.1).map List.length = some 1 ∧
    (attemptsOf? runKeyRotation.1).map (List.map FailoverAttempt.keyIndex) =
      some [0] := by
  refine ⟨by rfl, by rfl⟩

/-- Claim C9 (amended): For every dispatch run whose outcome exposes an
attempts list (success, or the aggregate error — which carries the full
list), the providers of the recorded attempts form an order-preserving
subsequence of the router-produced candidate list (unavailable candidates
are skipped without a record, so it need not be a prefix), and when the
candidate list has no duplicates each provider appears at most once. -/
theorem c9_theorem (α : Type) (executor : ApiSource → Nat → CallOutcome α)
    (cfg : ResilienceConfig) (now : Nat) (hasClient : ApiSource → Bool)
    (custom : Option (List ApiSource)) (tool : String)
    (symbol : Option String) (st : ClientState) (l : List FailoverAttempt)
    (h : attemptsOf? (executeWithCascadingFailover custom tool symbol executor
        cfg now hasClient st).1 = some l) :
    List.Sublist (l.map FailoverAttempt.source)
      (getSourcesForTool custom tool symbol) ∧
    ((getSourcesForTool custom tool symbol).Nodup →
      (l.map FailoverAttempt.source).Nodup) := by
  obtain ⟨t, ht, hsub⟩ :=
    cascadeGo_attempts executor cfg now hasClient _ st [] 0 l h
  rw [List.nil_append] at ht
  subst ht
  exact ⟨hsub, fun hnd => List.Nodup.sublist hsub hnd⟩

/-- Closed instance of `c9_theorem` on `runSkipFirst`. -/
theorem c9_witness :
    List.Sublist
      ([mkAttempt 1000 .finnhub 0 true none].map FailoverAttempt.source)
      (getSourcesForTool none "get_news" none) ∧
    ((getSourcesForTool none "get_news" none).Nodup →
      ([mkAttempt 1000 .finnhub 0 true none].map FailoverAttempt.source).Nodup) :=
  c9_theorem Nat (fun _ _ => .ok 7) defaultCfg 1000 (fun s => s == .finnhub)
    none "get_news" none stOneKey [mkAttempt 1000 .finnhub 0 true none]
    (by rfl)

/-- Claim C9 (counterexample): In `runSkipFirst` the first candidate (tiingo,
no client configured) is skipped without an attempt record, so the recorded
providers `[finnhub]` are **not** a prefix of the candidate list
`[tiingo, finnhub]` — refuting the claim that the attempts sequence is
always a prefix of the router list. -/
theorem c9_counterexample :
    attemptsOf? runSkipFirst.1 = some [mkAttempt 1000 .finnhub 0 true none] ∧
    getSourcesForTool none "get_news" none = [.tiingo, .finnhub] ∧
    listIsFrontOf
      ([mkAttempt 1000 .finnhub 0 true none].map FailoverAttempt.source)
      (getSourcesForTool none "get_news" none) = false := by
  refine ⟨by rfl, by decide, by decide⟩

/-- Claim C3 (amended): For a **non-empty** symbol (market filtering runs
only under the JS `if (symbol)` truthiness guard; an empty symbol returns
the unfiltered priority list), every provider returned by
`getSourcesForTool(tool, symbol)` appears in the market-coverage set of the
symbol's market; and whenever the intersection of the base priority list
with that coverage is non-empty, every returned provider also appears in the
tool's priority (capability) entry. (When the intersection is empty the
fallback is the full coverage list, which need not satisfy the capability
condition.) -/
theorem c3_theorem (custom : Option (List ApiSource)) (tool sym : String)
    (s : ApiSource) (hne : sym.isEmpty = false)
    (hs : s ∈ getSourcesForTool custom tool (some sym)) :
    s ∈ MARKET_SOURCE_FILTER (marketOf sym) ∧
    (((basePriority custom tool).filter
        (fun x => (MARKET_SOURCE_FILTER (marketOf sym)).contains x)).isEmpty
          = false →
      s ∈ basePriority custom tool) := by
  simp only [getSourcesForTool, hne, Bool.false_eq_true, if_false] at hs
  by_cases h : ((basePriority custom tool).filter
      (fun x => (MARKET_SOURCE_FILTER (marketOf sym)).contains x)).isEmpty
  · rw [if_pos h] at hs
    exact ⟨hs, fun hc => absurd (h.symm.trans hc) (by decide)⟩
  · rw [if_neg h] at hs
    obtain ⟨hmem, hcov⟩ := List.mem_filter.mp hs
    refine ⟨?_, fun _ => hmem⟩
    simpa using hcov

/-- Closed instance of `c3_theorem` at `get_stock_quote` / `AAPL`. -/
theorem c3_witness :
    ApiSource.finnhub ∈ MARKET_SOURCE_FILTER (marketOf "AAPL") ∧
    (((basePriority none "get_stock_quote").filter
        (fun x => (MARKET_SOURCE_FILTER (marketOf "AAPL")).contains x)).isEmpty
          = false →
      ApiSource.finnhub ∈ basePriority none "get_stock_quote") :=
  c3_theorem none "get_stock_quote" "AAPL" .finnhub (by decide) (by decide)

/-- Claim C3 (counterexample): For `get_news` on the Shanghai symbol
`600000.SH` the intersection of the priority list `[tiingo, finnhub]` with
the SH coverage `[sina, eastmoney]` is empty, and the router falls back to
the full coverage list — whose member `sina` does **not** appear in the
tool's priority/capability entry, refuting the claim that the fallback still
satisfies the capability condition. -/
theorem c3_counterexample :
    getSourcesForTool none "get_news" (some "600000.SH") =
      [.sina, .eastmoney] ∧
    basePriority none "get_news" = [.tiingo, .finnhub] ∧
    ((basePriority none "get_news").contains ApiSource.sina) = false := by
  refine ⟨by decide, by decide, by decide⟩

/-- Claim C8 (amended): `getMarketFromSymbol` coincides, on every symbol, with
the decision list `marketRules`: the suffix rules of the claim plus
`.US`/`.N`/`.O` → US, the `SH`/`SZ`/`BJ` + 6-digit exchange forms, the
first-digit rules applied to the subsequence of digits of the symbol (not
only to all-digit symbols), the 5-digit rule likewise on the digit
subsequence, and the bare 1–5-capitals rule checked **after** the digit
rules; everything else is UNKNOWN. -/
theorem c8_theorem : ∀ l : List Char,
    getMarketFromSymbol l = specMarketAmended l := fun _ => rfl

/-- Claim C8 (counterexample): On the symbol `AAPL.US` the code returns US (its
`.US` suffix rule), while the claim's rule set — which has no such suffix
rule and no other matching rule — yields UNKNOWN; so the classifier does not
return "exactly the market given by the spec's rules". -/
theorem c8_counterexample :
    marketOf "AAPL.US" = .US ∧
    specMarketClaim "AAPL.US".toList = .UNKNOWN ∧
    getMarketFromSymbol "AAPL.US".toList ≠ specMarketClaim "AAPL.US".toList := by
  refine ⟨by decide, by decide, by decide⟩

/-- Claim C10: For every attempt number, every non-negative initial and maximum
delay, and every jitter draw in `[0, 1]`, `calculateBackoffDelay` returns an
integer that is non-negative and at most the maximum delay. -/
theorem c10_theorem (n : Nat) (initD maxD r : ℚ) (h0 : 0 ≤ initD)
    (hM : 0 ≤ maxD) (hr0 : 0 ≤ r) (hr1 : r ≤ 1) :
    0 ≤ calculateBackoffDelay n initD maxD r ∧
    (calculateBackoffDelay n initD maxD r : ℚ) ≤ maxD := by
  simp only [calculateBackoffDelay]
  constructor
  · exact le_max_left 0 _
  · have hfl :
        ((⌊min (initD * 2 ^ n + (r - 1 / 2) * 2 * (initD * 2 ^ n * (1 / 4)))
            maxD⌋ : ℤ) : ℚ) ≤ maxD :=
      le_trans (Int.floor_le _) (min_le_right _ _)
    push_cast
    exact max_le hM hfl

/-- Closed instance of `c10_theorem` at the default retry configuration
(initial delay 1000 ms, maximum 10000 ms) and a middling jitter draw. -/
theorem c10_witness :
    0 ≤ calculateBackoffDelay 0 1000 10000 (1 / 2) ∧
    (calculateBackoffDelay 0 1000 10000 (1 / 2) : ℚ) ≤ 10000 :=
  c10_theorem 0 1000 10000 (1 / 2) (by norm_num) (by norm_num) (by norm_num)
    (by norm_num)

/-! ### Key-pool lemmas (for C7) -/

/-- When every key is in cooldown, the cyclic scan finds nothing. -/
lemma scanKeys_none_of_all_cooldown (keys : List KeyInfo)
    (h : ∀ k ∈ keys, k.inCooldown = true) :
    ∀ fuel i, scanKeys keys fuel i = none := by
  intro fuel
  induction fuel with
  | zero => intro i; rfl
  | succ f ih =>
      intro i
      simp only [scanKeys]
      cases hk : keys.get? i with
      | none => rfl
      | some k => simp [h k (List.get?_mem hk), ih]

/-- When every key is in cooldown, `getNextKey` returns none. -/
lemma getNextKey_none_of_all_cooldown (p : KeyPoolState)
    (h : ∀ k ∈ p.keys, k.inCooldown = true) : getNextKey p = none := by
  simp [getNextKey, scanKeys_none_of_all_cooldown p.keys h]

/-- If the cyclic scan came back empty, every position it probed — the
`fuel` successive indices from `i`, cyclically — holds a cooling key. -/
lemma scanKeys_none_cooldown_at (keys : List KeyInfo) :
    ∀ fuel i, i < keys.length → scanKeys keys fuel i = none →
      ∀ s, s < fuel → ∀ k, keys.get? ((i + s) % keys.length) = some k →
        k.inCooldown = true := by
  intro fuel
  induction fuel with
  | zero =>
      intro i _ _ s hs
      exact absurd hs (Nat.not_lt_zero s)
  | succ f ih =>
      intro i hi h s hs k hk
      have hlen : 0 < keys.length := Nat.lt_of_le_of_lt (Nat.zero_le i) hi
      obtain ⟨k0, hk0⟩ : ∃ k0, keys.get? i = some k0 := by
        rw [List.get?_eq_get hi]
        exact ⟨_, rfl⟩
      simp only [scanKeys, hk0] at h
      by_cases hc : k0.inCooldown
      · rw [if_pos hc] at h
        cases s with
        | zero =>
            rw [Nat.add_zero, Nat.mod_eq_of_lt hi, hk0] at hk
            cases hk
            exact hc
        | succ s' =>
            refine ih ((i + 1) % keys.length) (Nat.mod_lt _ hlen) h s'
              (Nat.lt_of_succ_lt_succ hs) k ?_
            rw [Nat.mod_add_mod, show i + 1 + s' = i + (s' + 1) by omega]
            exact hk
      · rw [if_neg hc] at h
        cases h

/-- If some key at a valid position is available and the scan has at least
a full cycle of fuel, the scan succeeds. -/
lemma scanKeys_finds (keys : List KeyInfo) (fuel i j : Nat) (k : KeyInfo)
    (hi : i < keys.length) (hjl : j < keys.length)
    (hj : keys.get? j = some k) (hfuel : keys.length ≤ fuel)
    (hav : k.inCooldown = false) :
    scanKeys keys fuel i ≠ none := by
  intro h
  have hlen : 0 < keys.length := Nat.lt_of_le_of_lt (Nat.zero_le i) hi
  have hs : (j + keys.length - i) % keys.length < fuel :=
    Nat.lt_of_lt_of_le (Nat.mod_lt _ hlen) hfuel
  have hcool := scanKeys_none_cooldown_at keys fuel i hi h
    ((j + keys.length - i) % keys.length) hs k ?_
  · rw [hav] at hcool
    cases hcool
  · have e1 : (i + (j + keys.length - i) % keys.length) % keys.length =
        (i + (j + keys.length - i)) % keys.length := by
      conv_lhs => rw [Nat.add_comm]
      rw [Nat.mod_add_mod, Nat.add_comm]
    have e2 : i + (j + keys.length - i) = j + keys.length := by omega
    rw [e1, e2, Nat.add_mod_right, Nat.mod_eq_of_lt hjl]
    exact hj

/-- With a valid current index and any available key, `getNextKey` finds a
key (its `2n` cyclic probes cover the whole pool). -/
lemma getNextKey_ne_none (p : KeyPoolState)
    (hi : p.currentIndex < p.keys.length) (j : Nat) (k : KeyInfo)
    (hjl : j < p.keys.length) (hj : p.keys.get? j = some k)
    (hav : k.inCooldown = false) : getNextKey p ≠ none := by
  have hne : p.keys.isEmpty = false := by
    cases hempty : p.keys.isEmpty
    · rfl
    · rw [List.isEmpty_iff_length_eq_zero] at hempty
      omega
  simp only [getNextKey, hne, Bool.false_eq_true, if_false]
  cases hscan : scanKeys p.keys (p.keys.length * 2) p.currentIndex with
  | none =>
      exact absurd hscan
        (scanKeys_finds p.keys (p.keys.length * 2) p.currentIndex j k hi hjl
          hj (by omega) hav)
  | some r => simp

/-- The sweep preserves the number of keys. -/
lemma sweep_length (p : KeyPoolState) (now : Nat) :
    (checkAndResetCooldowns p now).keys.length = p.keys.length := by
  simp [checkAndResetCooldowns]

/-- The sweep clears the cooldown of a key whose deadline has passed. -/
lemma sweep_revives (p : KeyPoolState) (now : Nat) (j : Nat) (k : KeyInfo)
    (hj : p.keys.get? j = some k) (hcd : k.inCooldown = true)
    (d : Nat) (hd : k.cooldownUntil = some d) (hdn : d ≤ now) :
    (checkAndResetCooldowns p now).keys.get? j =
      some { k with inCooldown := false, cooldownUntil := none } := by
  simp only [checkAndResetCooldowns]
  rw [List.get?_map, hj]
  simp [hcd, hd, hdn]

/-- The single key of `freshPool 1` after a rate-limit mark at time 0 with
the default one-hour reset window. -/
def cooledPool : KeyPoolState := markRateLimit 3600000 (freshPool 1) 0 0

/-- Claim C7 (amended): For a pool whose current index is in range: when every
key is in cooldown, `acquire` (`getNextKey`) returns none — in particular
after rate-limit marks on all `n` keys; and `getNextKey` itself never clears
an expired cooldown (it inspects only the `inCooldown` flags, not the
clock), so a key whose deadline has passed is returned again only after
`checkAndResetCooldowns` (reached via `hasAvailableKey`) has swept the pool,
after which `getNextKey` does return a key. -/
theorem c7_theorem (p : KeyPoolState) (now : Nat)
    (hi : p.currentIndex < p.keys.length) :
    ((∀ k ∈ p.keys, k.inCooldown = true) → getNextKey p = none) ∧
    (∀ j k d, j < p.keys.length → p.keys.get? j = some k →
      k.inCooldown = true → k.cooldownUntil = some d → d ≤ now →
      getNextKey (checkAndResetCooldowns p now) ≠ none) := by
  constructor
  · intro h
    exact getNextKey_none_of_all_cooldown p h
  · intro j k d hjl hj hcd hd hdn
    exact getNextKey_ne_none (checkAndResetCooldowns p now)
      (by rw [sweep_length]; exact hi) j
      { k with inCooldown := false, cooldownUntil := none }
      (by rw [sweep_length]; exact hjl)
      (sweep_revives p now j k hj hcd d hd hdn) rfl

/-- Closed instance of `c7_theorem` on the one-key pool: all keys cooling ⇒
acquire none; after the sweep at the deadline, acquire succeeds again. -/
theorem c7_witness :
    getNextKey cooledPool = none ∧
    getNextKey (checkAndResetCooldowns cooledPool 3600000) ≠ none :=
  ⟨(c7_theorem cooledPool 3600000 (by decide)).1 (by decide),
   (c7_theorem cooledPool 3600000 (by decide)).2 0
     ⟨0, 0, 0, true, some 3600000, some 0⟩ 3600000 (by decide) (by decide)
     rfl rfl (by decide)⟩

/-- Claim C7 (counterexample): The cooled one-key pool's deadline (3600000) has
passed at `now = 3600000`, yet the next acquire still returns none, and
`rotateKey` finds nothing either: neither acquire nor rotate clears expired
cooldowns (the code sweeps only in `checkAndResetCooldowns`, reached via
`hasAvailableKey`), refuting the claim that after a cooldown expiry the next
acquire returns a key. Only after the explicit sweep does acquire succeed. -/
theorem c7_counterexample :
    (cooledPool.keys.map KeyInfo.cooldownUntil) = [some 3600000] ∧
    getNextKey cooledPool = none ∧
    (rotateKey cooledPool).1 = false ∧
    getNextKey (checkAndResetCooldowns cooledPool 3600000) ≠ none := by
  refine ⟨by decide, by decide, by decide, by decide⟩

end FinSkills
